import Mathlib

/-!
Shallow embedding of the rating engine of Silverfoe/trueskill-public.

Sources embedded here:
- `src/trueskill_api_v3.py` (the current engine: store helpers, incremental
  push, rebuild, prediction, confidence, snapshot codec);
- `src/Archive & Branches/trueskill_api_year.py` (the match sequencer
  `sort_matches_for_processing` and its `comp_level_order` phase ranking).

Modelling conventions:
- Python strings are modelled as `List Char` (`PyStr`), with executable
  versions of `str.strip()` and `str.lower()` (ASCII, which covers the
  team-key alphabet used by the program).
- Python floats are modelled as rationals `ℚ`.
- The Python dict `TEAM_RATINGS` is modelled as an association list with
  dict semantics: updating an existing key keeps its position, inserting a
  new key appends (Python dicts preserve insertion order).
- External library calls (`trueskill`'s `env.rate`, `math.sqrt`,
  `env.cdf`) are taken as function parameters, so every theorem quantifies
  over them; `Python`'s `sorted` is modelled by `List.mergeSort`, which is
  the same specification (a stable sort by the given key).
-/

namespace TrueskillPublic

/-- Python strings, modelled as lists of characters. -/
abbrev PyStr := List Char

/-- Coerce a Lean string literal to a `PyStr`. -/
def pys (s : String) : PyStr := s.data

/-- The characters removed by Python `str.strip()` with no argument
(space, tab, newline, carriage return, vertical tab, form feed). -/
def pyIsSpace (c : Char) : Bool :=
  c = ' ' || c = '\t' || c = '\n' || c = '\r' || c.toNat = 11 || c.toNat = 12

/-- Python `str.strip()`: drop whitespace from both ends. -/
def pyStrip (s : PyStr) : PyStr :=
  ((s.dropWhile pyIsSpace).reverse.dropWhile pyIsSpace).reverse

/-- Python `str.lower()` restricted to ASCII (team keys are ASCII). -/
def pyLower (s : PyStr) : PyStr := s.map Char.toLower

/-- `str(team_key).strip().lower()` — the canonical form of a team key
used by `get_team_rating`, `predict_team` and `_apply_json_to_memory` in
`src/trueskill_api_v3.py`. -/
def canon (k : PyStr) : PyStr := pyLower (pyStrip k)

/-- A `trueskill.Rating`: mean and standard deviation of a team's belief. -/
structure Rating where
  mu : ℚ
  sigma : ℚ
deriving DecidableEq

/-- A `trueskill.TrueSkill` environment's parameters. -/
structure TSEnv where
  mu : ℚ
  sigma : ℚ
  beta : ℚ
  tau : ℚ
  draw_probability : ℚ
deriving DecidableEq

/-- `env = trueskill.TrueSkill(draw_probability=0.0)` from
`src/trueskill_api_v3.py` line 43: library defaults `mu=25`,
`sigma=25/3`, `beta=25/6`, `tau=25/300`, with `draw_probability`
overridden to `0`. -/
def defaultEnv : TSEnv :=
  { mu := 25, sigma := 25 / 3, beta := 25 / 6, tau := 25 / 300
    draw_probability := 0 }

/-- The global Python dict `TEAM_RATINGS`, as an insertion-ordered
association list. -/
abbrev Store := List (PyStr × Rating)

/-- Dict read: `TEAM_RATINGS[k]` / `k in TEAM_RATINGS` (first match). -/
def dictGet? : Store → PyStr → Option Rating
  | [], _ => none
  | (k', v) :: rest, k => if k' = k then some v else dictGet? rest k

/-- Dict write `TEAM_RATINGS[k] = v`: replace in place if the key is
present, append otherwise (Python dicts keep insertion order). -/
def dictInsert : Store → PyStr → Rating → Store
  | [], k, v => [(k, v)]
  | (k', v') :: rest, k, v =>
    if k' = k then (k, v) :: rest else (k', v') :: dictInsert rest k v

/-- `src/trueskill_api_v3.py` lines 56–61, `get_team_rating`: canonicalize
the key; on a miss store and return `env.create_rating(mu=25, sigma=25/3)`
— the literal constants `25` and `25/3`, not the active environment's
parameters (`create_rating` with explicit arguments ignores the
environment's prior). -/
def get_team_rating (s : Store) (team_key : PyStr) : Store × Rating :=
  let k := canon team_key
  match dictGet? s k with
  | some r => (s, r)
  | none => (dictInsert s k { mu := 25, sigma := 25 / 3 }, { mu := 25, sigma := 25 / 3 })

/-- `src/trueskill_api_v3.py` lines 63–73, `team_confidence_from_sigma`. -/
def team_confidence_from_sigma (sigma : ℚ) (env : TSEnv) : ℚ :=
  let sigma0 := env.sigma
  if sigma0 ≤ 0 then 0
  else
    let frac := 1 - (sigma / sigma0) ^ 2
    let frac := max 0 (min 1 frac)
    100 * frac

/-- The rank list handed to `env.rate` (`src/trueskill_api_v3.py`
lines 221–226): `[0,1]` when side 1 scored higher, `[1,0]` when side 2
scored higher, `[0,0]` (a tie) when the scores are equal. -/
def ranksFor (score1 score2 : Int) : List Nat :=
  if score1 > score2 then [0, 1]
  else if score2 > score1 then [1, 0]
  else [0, 0]

/-- The type of the external `trueskill` library's
`env.rate([ratings1, ratings2], ranks=ranks)` call, taken as a
parameter. -/
abbrev RateFn := List Rating → List Rating → List Nat → List Rating × List Rating

/-- `[get_team_rating(t) for t in teams]`: the store is threaded left to
right through the comprehension. -/
def getRatings (s : Store) : List PyStr → Store × List Rating
  | [] => (s, [])
  | t :: rest =>
    let sr := get_team_rating s t
    let srs := getRatings sr.1 rest
    (srs.1, sr.2 :: srs.2)

/-- `for t, new_r in zip(teams, new_ratings): TEAM_RATINGS[t] = new_r` —
note the write goes to the RAW key `t`, not its canonical form
(`src/trueskill_api_v3.py` lines 230–233 and 270–273). -/
def writeBack : Store → List PyStr → List Rating → Store
  | s, t :: ts, r :: rs => writeBack (dictInsert s t r) ts rs
  | s, _, _ => s

/-- The shared body of one match application (`src/trueskill_api_v3.py`
lines 227–233 and 267–273): fetch both alliances' ratings (creating
priors), call `env.rate`, write the new ratings back under the raw
keys. -/
def applyRated (rate : RateFn) (s : Store) (teams1 teams2 : List PyStr)
    (score1 score2 : Int) : Store :=
  let sr1 := getRatings s teams1
  let sr2 := getRatings sr1.1 teams2
  let new := rate sr1.2 sr2.2 (ranksFor score1 score2)
  writeBack (writeBack sr2.1 teams1 new.1) teams2 new.2

/-- One element of the `/push_results` request body. -/
structure PushRecord where
  teams1 : List PyStr
  teams2 : List PyStr
  score1 : Option Int
  score2 : Option Int
deriving DecidableEq

/-- The loop body of `push_results` (`src/trueskill_api_v3.py`
lines 254–274): skip when either team list is empty or either score is
missing — there is NO negative-score check on this path — otherwise
apply the match and count it. -/
def pushStep (rate : RateFn) (acc : Store × Nat) (m : PushRecord) : Store × Nat :=
  match m.score1, m.score2 with
  | some sc1, some sc2 =>
    if m.teams1.isEmpty || m.teams2.isEmpty then acc
    else (applyRated rate acc.1 m.teams1 m.teams2 sc1 sc2, acc.2 + 1)
  | _, _ => acc

/-- `src/trueskill_api_v3.py` lines 245–275, `push_results`: fold the
batch over the store, returning the final store and the applied count. -/
def push_results (rate : RateFn) (s : Store) (data : List PushRecord) : Store × Nat :=
  data.foldl (pushStep rate) (s, 0)

/-- A `RateFn` that returns the input ratings unchanged; used to evaluate
the store-shape behaviour of the loops at concrete inputs. -/
def rateId : RateFn := fun r1 r2 _ => (r1, r2)

/-- Python `round(x, 2)` (round half to even at two decimal places),
used for the serialized `confidence_percent`. -/
def pyRound2 (x : ℚ) : ℚ :=
  let y := x * 100
  let f : ℤ := ⌊y⌋
  let r := y - (f : ℚ)
  let n : ℤ :=
    if r < 1 / 2 then f
    else if 1 / 2 < r then f + 1
    else if f % 2 = 0 then f else f + 1
  (n : ℚ) / 100

/-- `src/trueskill_api_v3.py` lines 277–298, `predict_team`: a pure read
of the store under the canonical key. `none` models the 404
"Team not found" response; on a hit the response carries
`(mu, sigma, mu − 3σ, round(confidence, 2))`. -/
def predict_team (env : TSEnv) (s : Store) (team_key : PyStr) :
    Option (ℚ × ℚ × ℚ × ℚ) :=
  let k := canon team_key
  match dictGet? s k with
  | none => none
  | some r =>
    some (r.mu, r.sigma, r.mu - 3 * r.sigma,
      pyRound2 (team_confidence_from_sigma r.sigma env))

/-- `src/trueskill_api_v3.py` lines 300–329, `predict_match`. `sqrtF`
stands for the external `math.sqrt` and `cdfF` for `env.cdf`, both taken
as parameters. `none` models the 400 response when either alliance is
empty. The returned store carries the documented side effect of creating
priors for never-seen teams. -/
def predict_match (sqrtF cdfF : ℚ → ℚ) (env : TSEnv) (s : Store)
    (teams1 teams2 : List PyStr) : Store × Option (ℚ × ℚ) :=
  if teams1.isEmpty || teams2.isEmpty then (s, none)
  else
    let sr1 := getRatings s teams1
    let sr2 := getRatings sr1.1 teams2
    let mu1 := (sr1.2.map Rating.mu).sum
    let mu2 := (sr2.2.map Rating.mu).sum
    let sigma_sq_sum := ((sr1.2 ++ sr2.2).map (fun r => r.sigma ^ 2)).sum
    let N : ℚ := ((sr1.2.length + sr2.2.length : ℕ) : ℚ)
    let delta_mu := mu1 - mu2
    let denom := sqrtF (N * env.beta ^ 2 + sigma_sq_sum)
    let win_prob := if denom ≠ 0 then cdfF (delta_mu / denom) else 1 / 2
    (sr2.1, some (win_prob, 1 - win_prob))

/-- The two families of truncated-Gaussian moment functions of the
two-alliance TrueSkill update. -/
inductive MomentBranch where
  | drawAware
  | nonDraw
deriving DecidableEq

/-- Modelled from the spec: the external `trueskill` library's two-team
`env.rate` (called at `src/trueskill_api_v3.py` line 229; the library is
not part of this repository) dispatches to the draw-aware
truncated-Gaussian moment functions exactly when the two submitted ranks
are tied, and to the non-draw ones otherwise, independently of the
environment's configured `drawProbability` (which only parameterizes the
draw margin inside the draw-aware branch). -/
def rateBranch (draw_probability : ℚ) (ranks : List Nat) : MomentBranch :=
  match draw_probability, ranks with
  | _, [r1, r2] => if r1 = r2 then .drawAware else .nonDraw
  | _, _ => .nonDraw

/-- One alliance of a raw The Blue Alliance match payload:
`{"team_keys": [...], "score": ...}`. -/
structure AllianceData where
  team_keys : List PyStr
  score : Option Int
deriving DecidableEq

/-- A raw match payload as consumed by the rebuild loop and the
sequencer; `alliances = none` models a missing/falsy `alliances` field
(red and blue otherwise). -/
structure RawMatch where
  alliances : Option (AllianceData × AllianceData)
  actual_time : Option Int
  time : Option Int
  comp_level : Option PyStr
  set_number : Option Int
  match_number : Option Int
deriving DecidableEq

/-- Python `m.get(f) or d` for an integer field: both `None` and `0` are
falsy, so either falls through to the default. -/
def pyOrInt (a : Option Int) (b : Int) : Int :=
  match a with
  | some x => if x = 0 then b else x
  | none => b

/-- `src/Archive & Branches/trueskill_api_year.py` lines 118–121,
`comp_level_order`: the fixed phase ranking
`{"pr": 0, "qm": 1, "ef": 2, "qf": 3, "sf": 4, "f": 5}` with every other
(or missing) phase mapped to 9, i.e. after all ranked phases. -/
def comp_level_order (comp_level : Option PyStr) : Int :=
  let s := pyLower (comp_level.getD [])
  if s = pys "pr" then 0
  else if s = pys "qm" then 1
  else if s = pys "ef" then 2
  else if s = pys "qf" then 3
  else if s = pys "sf" then 4
  else if s = pys "f" then 5
  else 9

/-- The composite sort key of `sort_matches_for_processing`
(`trueskill_api_year.py` lines 157–161):
`(int(ts or 0), comp_level_order, set_number or 0, match_number or 0)`
with `ts = m.get("actual_time") or m.get("time") or 0`. -/
def yearSortKey (m : RawMatch) : Int × Int × Int × Int :=
  (pyOrInt m.actual_time (pyOrInt m.time 0),
   comp_level_order m.comp_level,
   pyOrInt m.set_number 0,
   pyOrInt m.match_number 0)

/-- Lexicographic `≤` on integer 4-tuples: how Python compares the
composite sort keys. -/
def tup4Le (a b : Int × Int × Int × Int) : Bool :=
  decide (a.1 < b.1) || (decide (a.1 = b.1) &&
    (decide (a.2.1 < b.2.1) || (decide (a.2.1 = b.2.1) &&
      (decide (a.2.2.1 < b.2.2.1) || (decide (a.2.2.1 = b.2.2.1) &&
        decide (a.2.2.2 ≤ b.2.2.2))))))

/-- The ordering `sorted(matches, key=key)` sorts by. -/
def matchLe (a b : RawMatch) : Bool := tup4Le (yearSortKey a) (yearSortKey b)

/-- `trueskill_api_year.py` lines 155–165, `sort_matches_for_processing`:
Python's `sorted` with the composite key — a stable sort by `matchLe`,
modelled by Lean's stable `List.mergeSort`. (The `try/except` fallback
around `sorted` cannot fire in this model: the key function is total.)
The function is pure, so replaying the same input always yields the same
order. -/
def sort_matches_for_processing (ms : List RawMatch) : List RawMatch :=
  ms.mergeSort matchLe

/-- The timestamp-only sort key of the v3 rebuild
(`src/trueskill_api_v3.py` line 206):
`m.get('actual_time') or m.get('time') or 0`. -/
def v3SortKey (m : RawMatch) : Int := pyOrInt m.actual_time (pyOrInt m.time 0)

/-- `matches.sort(key=...)` in the v3 rebuild: stable sort by timestamp
only. -/
def v3Sort (ms : List RawMatch) : List RawMatch :=
  ms.mergeSort (fun a b => v3SortKey a ≤ v3SortKey b)

/-- The per-match body of the v3 rebuild loop (`src/trueskill_api_v3.py`
lines 209–233): skip on a missing `alliances` field, a missing score, or
a negative (unplayed-sentinel) score; otherwise rate and write back. -/
def v3ApplyMatch (rate : RateFn) (s : Store) (m : RawMatch) : Store :=
  match m.alliances with
  | none => s
  | some al =>
    match al.1.score, al.2.score with
    | some sc1, some sc2 =>
      if sc1 < 0 || sc2 < 0 then s
      else applyRated rate s al.1.team_keys al.2.team_keys sc1 sc2
    | _, _ => s

/-- The outcome of one Blue-Alliance HTTP GET for an event's matches:
`ok` is a 200 response whose body is a JSON list, `badStatus` a non-200
status (or a non-list body, treated identically: the event is skipped in
the year loop and fatal in the event mode), `raise` a raised exception
(network failure), which propagates to the surrounding handler. -/
inductive EvFetch where
  | ok (ms : List RawMatch)
  | badStatus
  | raise
deriving DecidableEq

/-- The outcome of the year-mode event-list GET: `ok` carries each
listed event's optional `key` field. -/
inductive YearEventsFetch where
  | ok (eventKeys : List (Option PyStr))
  | badStatus
  | raise
deriving DecidableEq

/-- The external Match Data Provider (The Blue Alliance), as the engine
sees it during one rebuild. -/
structure Provider where
  eventMatches : PyStr → EvFetch
  yearEvents : Int → YearEventsFetch

/-- The validated request body of `/update`: exactly one of `event_key`
or `year`. -/
inductive UpdateRequest where
  | event (event_key : PyStr)
  | year (y : Int)
deriving DecidableEq

/-- The observable result of `/update`: a success (HTTP 200, carrying
`teams_indexed`) or an error response (HTTP 4xx/5xx). -/
inductive UpdateResult where
  | ok (teams_indexed : Nat)
  | error
deriving DecidableEq

/-- The year-mode gather loop (`src/trueskill_api_v3.py` lines 191–201):
for each listed event, a falsy key skips the event, a 200-with-list
response extends the gathered matches, a non-200 response (or non-list
body) silently skips the event, and a raised exception aborts the whole
request. -/
def gatherYear (p : Provider) : List (Option PyStr) → Except Unit (List RawMatch)
  | [] => .ok []
  | ev :: rest =>
    match ev with
    | none => gatherYear p rest
    | some k =>
      if k.isEmpty then gatherYear p rest
      else
        match p.eventMatches k with
        | .raise => .error ()
        | .badStatus => gatherYear p rest
        | .ok ms =>
          match gatherYear p rest with
          | .error e => .error e
          | .ok tail => .ok (ms ++ tail)

/-- The gather phase of `update_ratings` (`src/trueskill_api_v3.py`
lines 174–203), which runs entirely before `TEAM_RATINGS.clear()`:
`.error` models every path that returns a 4xx/5xx response before any
store mutation (non-200 status in event mode, failed or malformed event
list in year mode, any raised exception). -/
def gatherMatches (p : Provider) (req : UpdateRequest) : Except Unit (List RawMatch) :=
  match req with
  | .event k =>
    match p.eventMatches k with
    | .ok ms => .ok ms
    | .badStatus => .error ()
    | .raise => .error ()
  | .year y =>
    match p.yearEvents y with
    | .ok evs => gatherYear p evs
    | .badStatus => .error ()
    | .raise => .error ()

/-- `src/trueskill_api_v3.py` lines 162–243, `update_ratings` (the
`/update` rebuild): gather all matches from the provider; on any gather
failure return the error response with the store untouched; otherwise
clear the store, sort the matches by timestamp, and replay them. -/
def update_ratings (rate : RateFn) (p : Provider) (s : Store)
    (req : UpdateRequest) : Store × UpdateResult :=
  match gatherMatches p req with
  | .error _ => (s, .error)
  | .ok ms =>
    let s' := (v3Sort ms).foldl (v3ApplyMatch rate) []
    (s', .ok s'.length)

/-- The optional `meta.env` object of a snapshot payload; every field is
optional (`meta_env.get(field, current value)`). -/
structure MetaEnv where
  mu : Option ℚ
  sigma : Option ℚ
  beta : Option ℚ
  tau : Option ℚ
  draw_probability : Option ℚ
deriving DecidableEq

/-- One element of a snapshot's `teams` list. `team_key = none` models an
explicit JSON `null` (the `if key_raw is None: continue` branch); a
missing field yields `some []` via `entry.get("team_key", "")`. -/
structure TeamEntry where
  team_key : Option PyStr
  mu : Option ℚ
  sigma : Option ℚ
  conservative_mu_3sigma : Option ℚ
  confidence_percent : Option ℚ
deriving DecidableEq

/-- A snapshot payload: the embedded environment parameters (absent when
`payload["meta"]["env"]` is missing) and the team entries. The session
context fields (`event_key`, `year`) are not modelled: no claim refers to
them. -/
structure Payload where
  meta_env : Option MetaEnv
  teams : List TeamEntry
deriving DecidableEq

/-- Strict lexicographic comparison of Python strings (by code point,
shorter prefix first). -/
def pyStrLt : PyStr → PyStr → Bool
  | [], [] => false
  | [], _ :: _ => true
  | _ :: _, [] => false
  | a :: as, b :: bs => if a < b then true else if b < a then false else pyStrLt as bs

/-- `≤` on Python strings (the negation of reversed `pyStrLt`). -/
def pyStrLe (a b : PyStr) : Bool := !(pyStrLt b a)

/-- `src/trueskill_api_v3.py` lines 75–84, `_serialize_team_entry`. -/
def serialize_team_entry (env : TSEnv) (team_key : PyStr) (r : Rating) : TeamEntry :=
  { team_key := some team_key
    mu := some r.mu
    sigma := some r.sigma
    conservative_mu_3sigma := some (r.mu - 3 * r.sigma)
    confidence_percent := some (pyRound2 (team_confidence_from_sigma r.sigma env)) }

/-- `src/trueskill_api_v3.py` lines 86–106, `_build_export_payload`:
serialize every stored team, sorted by its stored (raw) key, together
with the active environment's parameters. -/
def build_export_payload (env : TSEnv) (s : Store) : Payload :=
  { meta_env := some
      { mu := some env.mu, sigma := some env.sigma, beta := some env.beta
        tau := some env.tau, draw_probability := some env.draw_probability }
    teams := (s.mergeSort (fun a b => pyStrLe a.1 b.1)).map
      (fun kv => serialize_team_entry env kv.1 kv.2) }

/-- The per-entry body of the import loop (`src/trueskill_api_v3.py`
lines 133–142): skip a `null` key, canonicalize, skip when the canonical
key is empty or `mu`/`sigma` is missing, otherwise store
`env.create_rating(mu=float(mu), sigma=float(sigma))` — the explicit
values — under the canonical key. -/
def importEntryStep (s : Store) (entry : TeamEntry) : Store :=
  match entry.team_key with
  | none => s
  | some key_raw =>
    let key := canon key_raw
    match entry.mu, entry.sigma with
    | some mu, some sigma =>
      if key.isEmpty then s else dictInsert s key { mu := mu, sigma := sigma }
    | _, _ => s

/-- The entries the import loop actually keeps. -/
def entryWellFormed (e : TeamEntry) : Bool :=
  match e.team_key, e.mu, e.sigma with
  | some k, some _, some _ => !(canon k).isEmpty
  | _, _, _ => false

/-- `src/trueskill_api_v3.py` lines 118–150, `_apply_json_to_memory`:
optionally rebuild the environment from the payload's `meta.env` (each
field falling back to the current environment's value), then clear the
store and repopulate it from the well-formed team entries. (The
`LAST_EVENT_KEY`/`LAST_YEAR` context restore is not modelled: no claim
refers to it.) -/
def apply_json_to_memory (env : TSEnv) (payload : Payload)
    (use_env_from_json : Bool) : TSEnv × Store :=
  let env' :=
    if use_env_from_json then
      let me := payload.meta_env.getD
        { mu := none, sigma := none, beta := none, tau := none, draw_probability := none }
      { mu := me.mu.getD env.mu, sigma := me.sigma.getD env.sigma
        beta := me.beta.getD env.beta, tau := me.tau.getD env.tau
        draw_probability := me.draw_probability.getD env.draw_probability }
    else env
  (env', payload.teams.foldl importEntryStep [])

/-- A fully populated `meta.env` object for the environment `e`. -/
def fullMeta (e : TSEnv) : MetaEnv :=
  { mu := some e.mu, sigma := some e.sigma, beta := some e.beta
    tau := some e.tau, draw_probability := some e.draw_probability }

/-- `src/trueskill_api_v3.py` lines 411–423, `load_data_from_json` (the
`/load_data` endpoint): `use_env_from_json = bool(body.get("use_env_from_json", True))`
— the flag defaults to `True` when the caller omits it — then apply the
parsed payload to memory. -/
def load_data_from_json (env : TSEnv) (use_env_body : Option Bool)
    (payload : Payload) : TSEnv × Store :=
  let use_env_from_json := use_env_body.getD true
  apply_json_to_memory env payload use_env_from_json

/-- Two stores are observationally equal when every key reads back the
same belief. -/
def StoreEquiv (s1 s2 : Store) : Prop := ∀ k, dictGet? s1 k = dictGet? s2 k

/-- A concrete valid match payload: red `["frc1"]` scored 10, blue
`["frc2"]` scored 5. -/
def demoMatch : RawMatch :=
  { alliances := some
      ({ team_keys := [pys "frc1"], score := some 10 },
       { team_keys := [pys "frc2"], score := some 5 })
    actual_time := none, time := none, comp_level := none
    set_number := none, match_number := none }

/-- A provider whose year listing succeeds with two events, where the
first event's match fetch succeeds and the second returns a non-200
status. -/
def partialProvider : Provider :=
  { eventMatches := fun k => if k = pys "e1" then .ok [demoMatch] else .badStatus
    yearEvents := fun _ => .ok [some (pys "e1"), some (pys "e2")] }

/-- A provider whose every fetch raises (models a network failure). -/
def failingProvider : Provider :=
  { eventMatches := fun _ => .raise
    yearEvents := fun _ => .raise }

/-- A one-team store whose stored key "FRC1" is NOT canonical — reachable
from the empty store via `push_results` (whose write-back uses raw keys). -/
def storeRawFRC1 : Store := [(pys "FRC1", { mu := 30, sigma := 2 })]

/-- The store produced by exporting `storeRawFRC1` and importing the
snapshot back. -/
def storeRawFRC1RT : Store :=
  (apply_json_to_memory defaultEnv (build_export_payload defaultEnv storeRawFRC1) true).2

/-- A snapshot payload with no teams whose embedded environment raises
the prior mean to 30 (other parameters default). -/
def payload30 : Payload :=
  { meta_env := some
      { mu := some 30
        sigma := some (25 / 3)
        beta := some (25 / 6)
        tau := some (25 / 300)
        draw_probability := some 0 }
    teams := [] }

/-- C9: for every belief deviation σ and environment prior deviation
σ0 > 0, `team_confidence_from_sigma` equals
`100 · clamp(1 − (σ/σ0)², 0, 1)` and its value lies in `[0, 100]`. -/
theorem claim_C9_confidence_clamped (sigma : ℚ) (env : TSEnv)
    (h : 0 < env.sigma) :
    team_confidence_from_sigma sigma env
      = 100 * max 0 (min 1 (1 - (sigma / env.sigma) ^ 2)) ∧
    0 ≤ team_confidence_from_sigma sigma env ∧
    team_confidence_from_sigma sigma env ≤ 100 := by
  unfold team_confidence_from_sigma
  rw [if_neg (not_le.mpr h)]
  refine ⟨rfl, ?_, ?_⟩
  · have h0 : (0 : ℚ) ≤ max 0 (min 1 (1 - (sigma / env.sigma) ^ 2)) :=
      le_max_left _ _
    linarith
  · have h1 : max 0 (min 1 (1 - (sigma / env.sigma) ^ 2)) ≤ 1 := by
      apply max_le
      · norm_num
      · exact min_le_left _ _
    linarith

/-- Witness for C9 at σ = 5 against the default environment
(σ0 = 25/3): the hypothesis 0 < σ0 holds and the metric evaluates as
claimed. -/
theorem claim_C9_confidence_clamped_witness :
    0 < defaultEnv.sigma ∧
    (team_confidence_from_sigma 5 defaultEnv
        = 100 * max 0 (min 1 (1 - (5 / defaultEnv.sigma) ^ 2)) ∧
      0 ≤ team_confidence_from_sigma 5 defaultEnv ∧
      team_confidence_from_sigma 5 defaultEnv ≤ 100) :=
  ⟨by norm_num [defaultEnv], claim_C9_confidence_clamped 5 defaultEnv (by norm_num [defaultEnv])⟩

/-- C1 (code bug): evaluating `push_results` from an empty store on the
single valid record `{teams1: ["FRC254"], teams2: ["frc1114"], score1: 10,
score2: 5}` leaves THREE entries, two of which ("frc254", created by
`get_team_rating` under the canonical key, and "FRC254", written back under
the raw key) share the canonical team key "frc254" — the store contains two
entries for the same canonical key, violating the claimed invariant. -/
theorem claim_C1_push_results_duplicate_canonical_keys :
    (push_results rateId []
        [{ teams1 := [pys "FRC254"], teams2 := [pys "frc1114"],
           score1 := some 10, score2 := some 5 }]).1.map Prod.fst
      = [pys "frc254", pys "frc1114", pys "FRC254"] ∧
    (push_results rateId []
        [{ teams1 := [pys "FRC254"], teams2 := [pys "frc1114"],
           score1 := some 10, score2 := some 5 }]).1.countP
        (fun kv => canon kv.1 = pys "frc254") = 2 := by
  decide

/-- C2 (code bug): `push_results` in `src/trueskill_api_v3.py` has no
negative-score check (unlike the rebuild path at line 219), so the batch
containing the single record `{teams1: ["frc1"], teams2: ["frc2"],
score1: -1, score2: 0}` — whose score is the negative unplayed sentinel —
is applied: the store is mutated (both teams materialize) and the applied
count is 1, not 0. -/
theorem claim_C2_push_results_sentinel_score_applied :
    (push_results rateId []
        [{ teams1 := [pys "frc1"], teams2 := [pys "frc2"],
           score1 := some (-1), score2 := some 0 }]).2 = 1 ∧
    (push_results rateId []
        [{ teams1 := [pys "frc1"], teams2 := [pys "frc2"],
           score1 := some (-1), score2 := some 0 }]).1.map Prod.fst
      = [pys "frc1", pys "frc2"] := by
  decide

/-- C6: for every pair of non-empty alliances, `predict_match` returns a
pair with `pA + pB = 1` (hence within 1e-9); when the denominator
`sqrt(N·β² + Σσ²)` is zero it returns `(1/2, 1/2)` instead of dividing by
zero, and otherwise `pA = Φ((muA − muB)/denom)` where `Φ` is the
environment's cdf and the sums range over the (lazily created) referenced
teams. -/
theorem claim_C6_predict_probabilities (sqrtF cdfF : ℚ → ℚ) (env : TSEnv)
    (s : Store) (teams1 teams2 : List PyStr)
    (h1 : teams1 ≠ []) (h2 : teams2 ≠ []) :
    let sr1 := getRatings s teams1
    let sr2 := getRatings sr1.1 teams2
    let denom := sqrtF (((sr1.2.length + sr2.2.length : ℕ) : ℚ) * env.beta ^ 2
        + ((sr1.2 ++ sr2.2).map (fun r => r.sigma ^ 2)).sum)
    ∃ p : ℚ × ℚ,
      (predict_match sqrtF cdfF env s teams1 teams2).2 = some p ∧
      p.1 + p.2 = 1 ∧
      (denom = 0 → p = (1 / 2, 1 / 2)) ∧
      (denom ≠ 0 → p.1 = cdfF (((sr1.2.map Rating.mu).sum
          - (sr2.2.map Rating.mu).sum) / denom)) := by
  have e1 : teams1.isEmpty = false := by
    cases teams1 with
    | nil => exact absurd rfl h1
    | cons a l => rfl
  have e2 : teams2.isEmpty = false := by
    cases teams2 with
    | nil => exact absurd rfl h2
    | cons a l => rfl
  dsimp only
  unfold predict_match
  rw [e1, e2]
  simp only [Bool.or_self, Bool.false_eq_true, if_false]
  by_cases hd : sqrtF ((((getRatings s teams1).2.length
      + (getRatings (getRatings s teams1).1 teams2).2.length : ℕ) : ℚ)
      * env.beta ^ 2
    + (((getRatings s teams1).2
        ++ (getRatings (getRatings s teams1).1 teams2).2).map
        (fun r => r.sigma ^ 2)).sum) = 0
  · refine ⟨_, rfl, by ring, fun _ => ?_, fun hc => absurd hd hc⟩
    simp only [hd, ne_eq, not_true_eq_false, if_false, ite_false]
    norm_num
  · refine ⟨_, rfl, by ring, fun hc => absurd hc hd, fun _ => ?_⟩
    simp only [ne_eq, hd, not_false_eq_true, if_true, ite_true]

/-- Witness for C6: both alliances are non-empty at the concrete input
(`sqrtF = id`, `cdfF = id`, default environment, empty store,
`teams1 = ["frc1"]`, `teams2 = ["frc2"]`) and the theorem's conclusion
holds there. -/
theorem claim_C6_predict_probabilities_witness :
    ([pys "frc1"] : List PyStr) ≠ [] ∧ ([pys "frc2"] : List PyStr) ≠ [] ∧
    (let sr1 := getRatings [] [pys "frc1"]
     let sr2 := getRatings sr1.1 [pys "frc2"]
     let denom := id (((sr1.2.length + sr2.2.length : ℕ) : ℚ) * defaultEnv.beta ^ 2
         + ((sr1.2 ++ sr2.2).map (fun r => r.sigma ^ 2)).sum)
     ∃ p : ℚ × ℚ,
       (predict_match id id defaultEnv [] [pys "frc1"] [pys "frc2"]).2 = some p ∧
       p.1 + p.2 = 1 ∧
       (denom = 0 → p = (1 / 2, 1 / 2)) ∧
       (denom ≠ 0 → p.1 = id (((sr1.2.map Rating.mu).sum
           - (sr2.2.map Rating.mu).sum) / denom))) :=
  ⟨by decide, by decide,
    claim_C6_predict_probabilities id id defaultEnv [] [pys "frc1"] [pys "frc2"]
      (by decide) (by decide)⟩

/-- C3 (amended): a team key never referenced is reported "not found" by
the single-team lookup without creating an entry (the lookup is a pure
read), and the first read-or-create reference materializes a belief equal
to the fixed constants `(25, 25/3)` — the literal arguments of
`env.create_rating(mu=25, sigma=(25/3))` — which coincide with the default
environment's prior but are not taken from the currently active
environment. -/
theorem claim_C3_lookup_miss_and_fixed_prior (env : TSEnv) (s : Store)
    (k : PyStr) (h : dictGet? s (canon k) = none) :
    predict_team env s k = none ∧
    (get_team_rating s k).2 = { mu := 25, sigma := 25 / 3 } ∧
    (get_team_rating s k).1
      = dictInsert s (canon k) { mu := 25, sigma := 25 / 3 } := by
  refine ⟨?_, ?_, ?_⟩ <;> simp [predict_team, get_team_rating, h]

/-- Witness for C3 (amended) at the empty store and key "frc1". -/
theorem claim_C3_lookup_miss_and_fixed_prior_witness :
    dictGet? [] (canon (pys "frc1")) = none ∧
    (predict_team defaultEnv [] (pys "frc1") = none ∧
      (get_team_rating [] (pys "frc1")).2 = { mu := 25, sigma := 25 / 3 } ∧
      (get_team_rating [] (pys "frc1")).1
        = dictInsert [] (canon (pys "frc1")) { mu := 25, sigma := 25 / 3 }) :=
  ⟨rfl, claim_C3_lookup_miss_and_fixed_prior defaultEnv [] (pys "frc1") rfl⟩

/-- C7: the rating update submits tied ranks `[0,0]` to `env.rate`
exactly when the two scores are equal (and win/loss ranks exactly when
they differ), and the tied-rank dispatch of the rating library selects
the draw-aware moment functions exactly for equal scores, for every
configured `drawProbability` — including 0. -/
theorem claim_C7_equal_scores_use_draw_branch (score1 score2 : Int) (dp : ℚ) :
    (ranksFor score1 score2 = [0, 0] ↔ score1 = score2) ∧
    (rateBranch dp (ranksFor score1 score2) = MomentBranch.drawAware
      ↔ score1 = score2) := by
  rcases lt_trichotomy score1 score2 with h | h | h
  · have h1 : ¬ score1 > score2 := not_lt.mpr h.le
    simp [ranksFor, rateBranch, h1, h, h.ne]
  · subst h
    simp [ranksFor, rateBranch]
  · have h2 : ¬ score2 > score1 := not_lt.mpr h.le
    simp [ranksFor, rateBranch, h2, h, h.ne']

/-- C10: when the `/load_data` body omits `use_env_from_json`, the flag
defaults to true and the active environment is silently replaced by the
parameters embedded in the snapshot (exactly as under an explicit true);
an explicit false keeps the current environment. -/
theorem claim_C10_use_env_from_json_defaults_true (env e : TSEnv)
    (ts : List TeamEntry) :
    (load_data_from_json env none { meta_env := some (fullMeta e), teams := ts }).1 = e ∧
    (load_data_from_json env (some true) { meta_env := some (fullMeta e), teams := ts }).1 = e ∧
    (load_data_from_json env (some false) { meta_env := some (fullMeta e), teams := ts }).1 = env := by
  refine ⟨?_, ?_, ?_⟩ <;> simp [load_data_from_json, apply_json_to_memory, fullMeta]

/-- C4 (amended): every hard provider failure — a failed event-list
fetch, a failed single-event fetch in event mode, or any raised
exception, i.e. every path on which the gather phase returns an error —
aborts the rebuild with the store exactly as it was; but a non-200
status for one event's match fetch during a year rebuild is NOT a
rebuild failure: that event is silently skipped and the rebuild
proceeds with the remaining events' matches. -/
theorem claim_C4_gather_failure_leaves_store_untouched (rate : RateFn)
    (p : Provider) (s : Store) (req : UpdateRequest)
    (h : gatherMatches p req = .error ()) :
    update_ratings rate p s req = (s, UpdateResult.error) ∧
    ∀ (q : Provider) (k : PyStr) (evs : List (Option PyStr)),
      q.eventMatches k = .badStatus →
      gatherYear q (some k :: evs) = gatherYear q evs := by
  constructor
  · unfold update_ratings
    rw [h]
  · intro q k evs hk
    by_cases he : k.isEmpty
    · simp [gatherYear, he]
    · simp [gatherYear, he, hk]

/-- Witness for C4 (amended): against a provider whose fetches raise,
the year-mode gather fails, the store `[("frc9", (30, 2))]` is returned
unchanged, and the skip property holds. -/
theorem claim_C4_gather_failure_leaves_store_untouched_witness :
    gatherMatches failingProvider (UpdateRequest.year 2025) = .error () ∧
    (update_ratings rateId failingProvider [(pys "frc9", { mu := 30, sigma := 2 })]
        (UpdateRequest.year 2025)
      = ([(pys "frc9", { mu := 30, sigma := 2 })], UpdateResult.error) ∧
     ∀ (q : Provider) (k : PyStr) (evs : List (Option PyStr)),
       q.eventMatches k = .badStatus →
       gatherYear q (some k :: evs) = gatherYear q evs) :=
  ⟨rfl, claim_C4_gather_failure_leaves_store_untouched rateId failingProvider
    [(pys "frc9", { mu := 30, sigma := 2 })] (UpdateRequest.year 2025) rfl⟩

/-- C4 (counterexample to the claim as stated): with a provider that
lists two events and returns an error status for the second event's
match fetch, the year rebuild does NOT leave the store in its
pre-rebuild state — the store `[("frc9", (30, 2))]` is cleared and
rebuilt from the first event's single match, and the request reports
success. -/
theorem claim_C4_year_event_fetch_error_still_mutates :
    (update_ratings rateId partialProvider [(pys "frc9", { mu := 30, sigma := 2 })]
        (UpdateRequest.year 2025)).1
      ≠ [(pys "frc9", { mu := 30, sigma := 2 })] ∧
    (update_ratings rateId partialProvider [(pys "frc9", { mu := 30, sigma := 2 })]
        (UpdateRequest.year 2025)).2 ≠ UpdateResult.error := by
  constructor <;>
    simp +decide [update_ratings, gatherMatches, gatherYear, partialProvider,
      demoMatch, v3Sort, List.mergeSort_singleton, v3ApplyMatch, applyRated,
      getRatings, get_team_rating, writeBack, dictInsert, dictGet?, canon,
      pyLower, pyStrip, pys, ranksFor, rateId]

/-- C3 (counterexample to "from the currently active environment"): we
load a snapshot whose embedded environment has prior mean 30 with
`use_env_from_json = true`; the active environment's prior mean becomes
30, yet the first reference of a fresh team still materializes with mean
25 — the hard-coded constant, not the active environment's prior. -/
theorem claim_C3_created_prior_ignores_active_env :
    (apply_json_to_memory defaultEnv payload30 true).1.mu = 30 ∧
    (get_team_rating (apply_json_to_memory defaultEnv payload30 true).2
        (pys "frc1")).2.mu = 25 ∧
    (get_team_rating (apply_json_to_memory defaultEnv payload30 true).2
        (pys "frc1")).2.mu
      ≠ (apply_json_to_memory defaultEnv payload30 true).1.mu := by
  refine ⟨?_, ?_, ?_⟩ <;>
    simp +decide [apply_json_to_memory, payload30, get_team_rating, dictGet?,
      dictInsert, canon, pyLower, pyStrip, pys, defaultEnv]

theorem tup4Le_refl (a : Int × Int × Int × Int) : tup4Le a a = true := by
  simp [tup4Le]

theorem tup4Le_trans (a b c : Int × Int × Int × Int) :
    tup4Le a b = true → tup4Le b c = true → tup4Le a c = true := by
  simp only [tup4Le, Bool.or_eq_true, Bool.and_eq_true, decide_eq_true_eq]
  omega

theorem tup4Le_total (a b : Int × Int × Int × Int) :
    (tup4Le a b || tup4Le b a) = true := by
  simp only [tup4Le, Bool.or_eq_true, Bool.and_eq_true, decide_eq_true_eq]
  omega

theorem enumLE_eq_true {α : Type} (le : α → α → Bool) (a b : ℕ × α) :
    (List.enumLE le a b = true)
      ↔ (le a.2 b.2 = true ∧ (le b.2 a.2 = true → a.1 ≤ b.1)) := by
  unfold List.enumLE
  by_cases h1 : le a.2 b.2 <;> by_cases h2 : le b.2 a.2 <;> simp [h1, h2]

theorem enumLE_trans {α : Type} (le : α → α → Bool)
    (htr : ∀ a b c, le a b = true → le b c = true → le a c = true)
    (a b c : ℕ × α) (hab : List.enumLE le a b = true)
    (hbc : List.enumLE le b c = true) : List.enumLE le a c = true := by
  rw [enumLE_eq_true] at hab hbc ⊢
  obtain ⟨h1, h2⟩ := hab
  obtain ⟨h3, h4⟩ := hbc
  refine ⟨htr _ _ _ h1 h3, fun hca => ?_⟩
  have hba : le b.2 a.2 = true := htr _ _ _ h3 hca
  have hcb : le c.2 b.2 = true := htr _ _ _ hca h1
  exact le_trans (h2 hba) (h4 hcb)

theorem enumLE_total {α : Type} (le : α → α → Bool)
    (hto : ∀ a b, (le a b || le b a) = true)
    (a b : ℕ × α) : (List.enumLE le a b || List.enumLE le b a) = true := by
  rw [Bool.or_eq_true, enumLE_eq_true, enumLE_eq_true]
  by_cases h1 : le a.2 b.2 = true <;> by_cases h2 : le b.2 a.2 = true
  · rcases Nat.le_total a.1 b.1 with h | h
    · exact Or.inl ⟨h1, fun _ => h⟩
    · exact Or.inr ⟨h2, fun _ => h⟩
  · exact Or.inl ⟨h1, fun hc => absurd hc h2⟩
  · exact Or.inr ⟨h2, fun hc => absurd hc h1⟩
  · exfalso
    have := hto a.2 b.2
    simp [h1, h2] at this

/-- C5: `sort_matches_for_processing` returns a permutation of the input
list ordered by the composite key (event timestamp, competition-phase
rank with pr < qm < ef < qf < sf < f and unranked phases mapped after
them, set number, match number — compared lexicographically), and the
sort is stable: it coincides with the index-decorated sort in which any
two records with equal composite keys appear at strictly increasing
input positions, i.e. ties preserve input order. The function is pure,
so replaying the same input list always yields the same order (the
rebuild loop then applies the records in exactly this order). -/
theorem claim_C5_sequencer_composite_key_stable (l : List RawMatch) :
    (sort_matches_for_processing l).Perm l ∧
    (sort_matches_for_processing l).Pairwise (fun a b => matchLe a b = true) ∧
    List.map (fun x => x.2) (l.enum.mergeSort (List.enumLE matchLe))
      = sort_matches_for_processing l ∧
    (l.enum.mergeSort (List.enumLE matchLe)).Pairwise
      (fun a b => yearSortKey a.2 = yearSortKey b.2 → a.1 < b.1) := by
  simp only [sort_matches_for_processing]
  have htr : ∀ a b c : RawMatch,
      matchLe a b = true → matchLe b c = true → matchLe a c = true :=
    fun a b c => tup4Le_trans _ _ _
  have hto : ∀ a b : RawMatch, (matchLe a b || matchLe b a) = true :=
    fun a b => tup4Le_total _ _
  refine ⟨List.mergeSort_perm l matchLe, List.sorted_mergeSort htr hto l,
    List.mergeSort_enum, ?_⟩
  have hsorted : (l.enum.mergeSort (List.enumLE matchLe)).Pairwise
      (fun a b => List.enumLE matchLe a b = true) :=
    List.sorted_mergeSort (enumLE_trans matchLe htr) (enumLE_total matchLe hto) l.enum
  have hperm : (l.enum.mergeSort (List.enumLE matchLe)).Perm l.enum :=
    List.mergeSort_perm _ _
  have h0 : l.enum.Pairwise (fun a b : ℕ × RawMatch => a.1 ≠ b.1) := by
    have hr : (l.enum.map Prod.fst).Pairwise (· ≠ ·) := by
      rw [List.enum_map_fst]
      exact List.nodup_range _
    exact List.pairwise_map.mp hr
  have hne : (l.enum.mergeSort (List.enumLE matchLe)).Pairwise
      (fun a b : ℕ × RawMatch => a.1 ≠ b.1) :=
    (hperm.pairwise_iff (fun {a b} h => h.symm)).mpr h0
  refine (hsorted.and hne).imp ?_
  intro a b hab hkey
  rw [enumLE_eq_true] at hab
  have hba : matchLe b.2 a.2 = true := by
    unfold matchLe
    rw [hkey]
    exact tup4Le_refl _
  exact lt_of_le_of_ne (hab.1.2 hba) hab.2

theorem dictGet?_dictInsert (s : Store) (k : PyStr) (v : Rating) (k' : PyStr) :
    dictGet? (dictInsert s k v) k' = if k = k' then some v else dictGet? s k' := by
  induction s with
  | nil => simp [dictInsert, dictGet?]
  | cons hd tl ih =>
    obtain ⟨a, w⟩ := hd
    by_cases hak : a = k
    · subst hak
      by_cases hkk : a = k' <;> simp [dictInsert, dictGet?, hkk]
    · by_cases hak' : a = k'
      · subst hak'
        have hka : ¬ k = a := fun h => hak h.symm
        simp [dictInsert, dictGet?, hak, hka]
      · simp [dictInsert, dictGet?, hak, hak', ih]

theorem dictGet?_eq_none_iff (s : Store) (k : PyStr) :
    dictGet? s k = none ↔ k ∉ s.map Prod.fst := by
  induction s with
  | nil => simp [dictGet?]
  | cons hd tl ih =>
    obtain ⟨a, w⟩ := hd
    by_cases hak : a = k
    · subst hak
      simp only [dictGet?, if_pos rfl, List.map_cons, List.mem_cons]
      constructor
      · intro h
        exact absurd h (by simp)
      · intro h
        exact absurd (Or.inl trivial) h
    · simp only [dictGet?, if_neg hak, List.map_cons, List.mem_cons]
      rw [ih]
      constructor
      · intro h hmem
        rcases hmem with h1 | h1
        · exact hak h1.symm
        · exact h h1
      · exact fun h h1 => h (Or.inr h1)

theorem mem_of_dictGet?_eq_some (s : Store) (k : PyStr) (v : Rating)
    (h : dictGet? s k = some v) : (k, v) ∈ s := by
  induction s with
  | nil => simp [dictGet?] at h
  | cons hd tl ih =>
    obtain ⟨a, w⟩ := hd
    by_cases hak : a = k
    · subst hak
      simp [dictGet?] at h
      simp [h]
    · simp [dictGet?, hak] at h
      exact List.mem_cons_of_mem _ (ih h)

theorem dictGet?_eq_some_of_mem (s : Store) (k : PyStr) (v : Rating)
    (hnd : (s.map Prod.fst).Nodup) (h : (k, v) ∈ s) :
    dictGet? s k = some v := by
  induction s with
  | nil => simp at h
  | cons hd tl ih =>
    obtain ⟨a, w⟩ := hd
    rcases List.mem_cons.mp h with h0 | h0
    · injection h0 with h1 h2
      subst h1
      subst h2
      simp [dictGet?]
    · have hak : ¬ a = k := by
        intro he
        subst he
        have : a ∈ tl.map Prod.fst :=
          List.mem_map.mpr ⟨(a, v), h0, rfl⟩
        exact (List.nodup_cons.mp hnd).1 this
      simp only [dictGet?, if_neg hak]
      exact ih (List.nodup_cons.mp hnd).2 h0

theorem dictGet?_perm (s1 s2 : Store) (hp : s1.Perm s2)
    (hnd : (s1.map Prod.fst).Nodup) (k : PyStr) :
    dictGet? s1 k = dictGet? s2 k := by
  cases hc : dictGet? s1 k with
  | none =>
    have h1 := (dictGet?_eq_none_iff s1 k).mp hc
    have h2 : k ∉ s2.map Prod.fst := fun hmem =>
      h1 (((hp.map Prod.fst).mem_iff).mpr hmem)
    exact ((dictGet?_eq_none_iff s2 k).mpr h2).symm
  | some v =>
    have h1 : (k, v) ∈ s2 := hp.subset (mem_of_dictGet?_eq_some s1 k v hc)
    have h2 : (s2.map Prod.fst).Nodup := ((hp.map Prod.fst).nodup_iff).mp hnd
    exact (dictGet?_eq_some_of_mem s2 k v h2 h1).symm

theorem dictInsert_eq_append (s : Store) (k : PyStr) (v : Rating)
    (h : k ∉ s.map Prod.fst) : dictInsert s k v = s ++ [(k, v)] := by
  induction s with
  | nil => rfl
  | cons hd tl ih =>
    obtain ⟨a, w⟩ := hd
    simp only [List.map_cons, List.mem_cons, not_or] at h
    have hak : ¬ a = k := fun he => h.1 he.symm
    simp [dictInsert, hak, ih h.2]

theorem pyStrLt_asymm (a : PyStr) : ∀ b : PyStr,
    pyStrLt a b = true → pyStrLt b a = false := by
  induction a with
  | nil =>
    intro b h
    cases b with
    | nil => simp [pyStrLt] at h
    | cons y ys => rfl
  | cons x xs ih =>
    intro b h
    cases b with
    | nil => simp [pyStrLt] at h
    | cons y ys =>
      simp only [pyStrLt] at h ⊢
      by_cases hxy : x < y
      · have hyx : ¬ y < x := lt_asymm hxy
        rw [if_neg hyx, if_pos hxy]
      · by_cases hyx : y < x
        · simp [hxy, hyx] at h
        · rw [if_neg hxy, if_neg hyx] at h
          rw [if_neg hyx, if_neg hxy]
          exact ih ys h

theorem pyStrLt_false_trans (a : PyStr) : ∀ (b c : PyStr),
    pyStrLt b a = false → pyStrLt c b = false → pyStrLt c a = false := by
  induction a with
  | nil =>
    intro b c _ _
    cases c <;> rfl
  | cons x xs ih =>
    intro b c h1 h2
    cases c with
    | nil =>
      cases b with
      | nil => simp [pyStrLt] at h1
      | cons y ys => simp [pyStrLt] at h2
    | cons z zs =>
      cases b with
      | nil => simp [pyStrLt] at h1
      | cons y ys =>
        simp only [pyStrLt] at h1 h2 ⊢
        by_cases hyx : y < x
        · simp [hyx] at h1
        · by_cases hzy : z < y
          · simp [hzy] at h2
          · have hxy' : x ≤ y := not_lt.mp hyx
            have hyz' : y ≤ z := not_lt.mp hzy
            have hzx : ¬ z < x := not_lt.mpr (le_trans hxy' hyz')
            rw [if_neg hyx] at h1
            rw [if_neg hzy] at h2
            rw [if_neg hzx]
            by_cases hxz : x < z
            · rw [if_pos hxz]
            · rw [if_neg hxz]
              by_cases hxy : x < y
              · exact absurd (lt_of_lt_of_le hxy hyz') hxz
              · by_cases hyz : y < z
                · exact absurd (lt_of_le_of_lt hxy' hyz) hxz
                · rw [if_neg hxy] at h1
                  rw [if_neg hyz] at h2
                  exact ih ys zs h1 h2

theorem pyStrLe_total (a b : PyStr) : (pyStrLe a b || pyStrLe b a) = true := by
  unfold pyStrLe
  cases h : pyStrLt b a
  · simp
  · simp [pyStrLt_asymm b a h]

theorem pyStrLe_trans (a b c : PyStr) (h1 : pyStrLe a b = true)
    (h2 : pyStrLe b c = true) : pyStrLe a c = true := by
  unfold pyStrLe at *
  rw [Bool.not_eq_true'] at h1 h2 ⊢
  exact pyStrLt_false_trans a b c h1 h2

theorem importEntryStep_serialize (env : TSEnv) (s : Store) (k : PyStr)
    (r : Rating) (hc : canon k = k) (hne : k ≠ []) :
    importEntryStep s (serialize_team_entry env k r) = dictInsert s k r := by
  have hkE : k.isEmpty = false := by
    cases k with
    | nil => exact absurd rfl hne
    | cons a l => rfl
  simp only [importEntryStep, serialize_team_entry, hc, hkE, Bool.false_eq_true,
    if_false]

theorem foldl_import_serialized (env : TSEnv) (entries : List (PyStr × Rating)) :
    ∀ acc : Store,
    (∀ kv ∈ entries, canon kv.1 = kv.1 ∧ kv.1 ≠ []) →
    ((acc ++ entries).map Prod.fst).Nodup →
    (entries.map (fun kv => serialize_team_entry env kv.1 kv.2)).foldl
        importEntryStep acc = acc ++ entries := by
  induction entries with
  | nil =>
    intro acc _ _
    simp
  | cons hd tl ih =>
    intro acc hwf hnd
    obtain ⟨k, r⟩ := hd
    obtain ⟨hc, hne⟩ := hwf (k, r) (List.mem_cons_self _ _)
    have hkacc : k ∉ acc.map Prod.fst := by
      intro hmem
      rw [List.map_append] at hnd
      have hdis := (List.nodup_append.mp hnd).2.2
      have hhd : k ∈ List.map Prod.fst ((k, r) :: tl) := by
        rw [List.map_cons]
        exact List.mem_cons_self _ _
      exact hdis hmem hhd
    rw [List.map_cons, List.foldl_cons,
      importEntryStep_serialize env acc k r hc hne,
      dictInsert_eq_append acc k r hkacc]
    have h2 : ((acc ++ [(k, r)]) ++ tl).map Prod.fst
        |>.Nodup := by
      rw [← List.append_cons]
      exact hnd
    rw [ih (acc ++ [(k, r)]) (fun kv hkv => hwf kv (List.mem_cons_of_mem _ hkv)) h2,
      ← List.append_cons]

theorem apply_import_of_export (env : TSEnv) (s : Store) (b : Bool)
    (hc : ∀ kv ∈ s, canon kv.1 = kv.1) (hne : ∀ kv ∈ s, kv.1 ≠ [])
    (hnd : (s.map Prod.fst).Nodup) :
    (apply_json_to_memory env (build_export_payload env s) b).2
      = s.mergeSort (fun a b => pyStrLe a.1 b.1) := by
  have hperm : (s.mergeSort (fun a b => pyStrLe a.1 b.1)).Perm s :=
    List.mergeSort_perm _ _
  have hnd2 : ((s.mergeSort (fun a b => pyStrLe a.1 b.1)).map Prod.fst).Nodup :=
    ((hperm.map Prod.fst).nodup_iff).mpr hnd
  have hwf : ∀ kv ∈ s.mergeSort (fun a b => pyStrLe a.1 b.1),
      canon kv.1 = kv.1 ∧ kv.1 ≠ [] := by
    intro kv hkv
    have hm : kv ∈ s := hperm.subset hkv
    exact ⟨hc kv hm, hne kv hm⟩
  simp only [apply_json_to_memory, build_export_payload]
  have := foldl_import_serialized env (s.mergeSort (fun a b => pyStrLe a.1 b.1))
    [] hwf (by simpa using hnd2)
  simpa using this

theorem get_team_rating_congr (s1 s2 : Store) (h : StoreEquiv s1 s2) (t : PyStr) :
    (get_team_rating s1 t).2 = (get_team_rating s2 t).2 ∧
    StoreEquiv (get_team_rating s1 t).1 (get_team_rating s2 t).1 := by
  simp only [get_team_rating]
  rw [h (canon t)]
  cases hd : dictGet? s2 (canon t) with
  | none =>
    refine ⟨rfl, fun k => ?_⟩
    rw [dictGet?_dictInsert, dictGet?_dictInsert, h k]
  | some r => exact ⟨rfl, h⟩

theorem getRatings_congr (ts : List PyStr) : ∀ (s1 s2 : Store), StoreEquiv s1 s2 →
    (getRatings s1 ts).2 = (getRatings s2 ts).2 ∧
    StoreEquiv (getRatings s1 ts).1 (getRatings s2 ts).1 := by
  induction ts with
  | nil =>
    intro s1 s2 h
    exact ⟨rfl, h⟩
  | cons t rest ih =>
    intro s1 s2 h
    obtain ⟨hr, hs⟩ := get_team_rating_congr s1 s2 h t
    obtain ⟨hr2, hs2⟩ := ih _ _ hs
    constructor
    · simp only [getRatings]
      rw [hr, hr2]
    · simp only [getRatings]
      exact hs2

theorem predict_match_congr (sqrtF cdfF : ℚ → ℚ) (env : TSEnv) (s1 s2 : Store)
    (h : StoreEquiv s1 s2) (t1 t2 : List PyStr) :
    (predict_match sqrtF cdfF env s1 t1 t2).2
      = (predict_match sqrtF cdfF env s2 t1 t2).2 := by
  obtain ⟨hr1, hs1⟩ := getRatings_congr t1 s1 s2 h
  obtain ⟨hr2, hs2⟩ := getRatings_congr t2 _ _ hs1
  simp only [predict_match]
  by_cases hemp : (t1.isEmpty || t2.isEmpty) = true
  · rw [if_pos hemp, if_pos hemp]
  · rw [if_neg hemp, if_neg hemp]
    dsimp only
    rw [hr1, hr2]

theorem importEntryStep_not_wellFormed (s : Store) (e : TeamEntry)
    (h : entryWellFormed e = false) : importEntryStep s e = s := by
  rcases e with ⟨tk, mu, sg, cmu, cp⟩
  cases tk <;> cases mu <;> cases sg <;>
    simp_all [importEntryStep, entryWellFormed]

theorem foldl_import_filter (teams : List TeamEntry) : ∀ acc : Store,
    teams.foldl importEntryStep acc
      = (teams.filter entryWellFormed).foldl importEntryStep acc := by
  induction teams with
  | nil =>
    intro acc
    rfl
  | cons e tl ih =>
    intro acc
    cases he : entryWellFormed e
    · rw [List.foldl_cons, importEntryStep_not_wellFormed acc e he,
        List.filter_cons_of_neg (by simp [he])]
      exact ih acc
    · rw [List.foldl_cons, List.filter_cons_of_pos (by simp [he]),
        List.foldl_cons]
      exact ih _

/-- C8 (amended): for every engine state whose stored team keys are
canonical (trimmed lowercase), non-empty and duplicate-free — the shape
every read path maintains — the export→import round trip preserves every
team's belief exactly (hence within 1e-9) and every `predict` output;
export lists the teams sorted by key; and the atomic replacement builds
the new store from the payload alone while skipping malformed
entries (null/empty key, missing mu or sigma) without failing: importing
any payload equals importing just its well-formed entries. -/
theorem claim_C8_export_import_roundtrip (env : TSEnv) (s : Store) (b : Bool)
    (hc : ∀ kv ∈ s, canon kv.1 = kv.1) (hne : ∀ kv ∈ s, kv.1 ≠ [])
    (hnd : (s.map Prod.fst).Nodup) :
    (∀ k, dictGet? (apply_json_to_memory env (build_export_payload env s) b).2 k
        = dictGet? s k) ∧
    (∀ (sqrtF cdfF : ℚ → ℚ) (env2 : TSEnv) (t1 t2 : List PyStr),
      (predict_match sqrtF cdfF env2
          (apply_json_to_memory env (build_export_payload env s) b).2 t1 t2).2
        = (predict_match sqrtF cdfF env2 s t1 t2).2) ∧
    ((build_export_payload env s).teams.map TeamEntry.team_key
        = ((s.map Prod.fst).mergeSort pyStrLe).map some) ∧
    ((s.map Prod.fst).mergeSort pyStrLe).Pairwise (fun a b => pyStrLe a b = true) ∧
    (∀ (env3 : TSEnv) (p : Payload) (b3 : Bool),
      apply_json_to_memory env3 p b3
        = apply_json_to_memory env3 { p with teams := p.teams.filter entryWellFormed } b3) := by
  have hstore := apply_import_of_export env s b hc hne hnd
  have hperm : (s.mergeSort (fun a b => pyStrLe a.1 b.1)).Perm s :=
    List.mergeSort_perm _ _
  have hnd2 : ((s.mergeSort (fun a b => pyStrLe a.1 b.1)).map Prod.fst).Nodup :=
    ((hperm.map Prod.fst).nodup_iff).mpr hnd
  have hequiv : StoreEquiv
      (apply_json_to_memory env (build_export_payload env s) b).2 s := by
    intro k
    rw [hstore]
    exact dictGet?_perm _ _ hperm hnd2 k
  refine ⟨hequiv, ?_, ?_, ?_, ?_⟩
  · intro sqrtF cdfF env2 t1 t2
    exact predict_match_congr sqrtF cdfF env2 _ s hequiv t1 t2
  · have h1 : List.map Prod.fst (s.mergeSort (fun a b => pyStrLe a.1 b.1))
        = (s.map Prod.fst).mergeSort pyStrLe :=
      List.map_mergeSort (fun a _ b _ => rfl)
    simp only [build_export_payload]
    rw [List.map_map, ← h1, List.map_map]
    rfl
  · exact List.sorted_mergeSort pyStrLe_trans pyStrLe_total _
  · intro env3 p b3
    simp only [apply_json_to_memory]
    rw [foldl_import_filter]

/-- Witness for C8 (amended) at the canonical one-team store
`[("frc1", (30, 2))]` with the default environment. -/
theorem claim_C8_export_import_roundtrip_witness :
    (∀ kv ∈ ([(pys "frc1", { mu := 30, sigma := 2 })] : Store),
      canon kv.1 = kv.1) ∧
    (∀ kv ∈ ([(pys "frc1", { mu := 30, sigma := 2 })] : Store), kv.1 ≠ []) ∧
    (([(pys "frc1", { mu := 30, sigma := 2 })] : Store).map Prod.fst).Nodup ∧
    ((∀ k, dictGet? (apply_json_to_memory defaultEnv
          (build_export_payload defaultEnv
            [(pys "frc1", { mu := 30, sigma := 2 })]) true).2 k
        = dictGet? [(pys "frc1", { mu := 30, sigma := 2 })] k) ∧
     (∀ (sqrtF cdfF : ℚ → ℚ) (env2 : TSEnv) (t1 t2 : List PyStr),
       (predict_match sqrtF cdfF env2
           (apply_json_to_memory defaultEnv
             (build_export_payload defaultEnv
               [(pys "frc1", { mu := 30, sigma := 2 })]) true).2 t1 t2).2
         = (predict_match sqrtF cdfF env2
             [(pys "frc1", { mu := 30, sigma := 2 })] t1 t2).2) ∧
     ((build_export_payload defaultEnv
          [(pys "frc1", { mu := 30, sigma := 2 })]).teams.map TeamEntry.team_key
         = ((([(pys "frc1", { mu := 30, sigma := 2 })] : Store).map
            Prod.fst).mergeSort pyStrLe).map some) ∧
     ((([(pys "frc1", { mu := 30, sigma := 2 })] : Store).map
        Prod.fst).mergeSort pyStrLe).Pairwise (fun a b => pyStrLe a b = true) ∧
     (∀ (env3 : TSEnv) (p : Payload) (b3 : Bool),
       apply_json_to_memory env3 p b3
         = apply_json_to_memory env3
             { p with teams := p.teams.filter entryWellFormed } b3)) :=
  ⟨by decide, by decide, by simp,
    claim_C8_export_import_roundtrip defaultEnv
      [(pys "frc1", { mu := 30, sigma := 2 })] true
      (by decide) (by decide) (by simp)⟩

/-- C8 (counterexample to the claim for EVERY engine state): the store
`[("FRC1", (30, 2))]` — reachable via `push_results`, whose write-back
stores raw keys — does not survive the round trip: export keeps the raw
key but import canonicalizes it, so after the round trip the key "FRC1"
reads back nothing (the belief moved to "frc1"), and the `predict` output
for the matchup `["FRC1"]` vs `["frc2"]` changes by about 0.046, far more
than 1e-9 (pre-export, prediction reads the canonical key "frc1", misses,
and creates a fresh prior; post-import it finds the migrated belief). -/
theorem claim_C8_roundtrip_changes_noncanonical_state :
    dictGet? storeRawFRC1RT (pys "FRC1") = none ∧
    dictGet? storeRawFRC1 (pys "FRC1") = some { mu := 30, sigma := 2 } ∧
    (((predict_match id id defaultEnv storeRawFRC1RT
          [pys "FRC1"] [pys "frc2"]).2.map Prod.fst).getD 0)
      - (((predict_match id id defaultEnv storeRawFRC1
          [pys "FRC1"] [pys "frc2"]).2.map Prod.fst).getD 0)
      > 1 / 1000000000 := by
  have hkey : canon (pys "FRC1") = pys "frc1" := by decide
  have hkey2 : canon (pys "frc2") = pys "frc2" := by decide
  have h1 : storeRawFRC1RT = [(pys "frc1", { mu := 30, sigma := 2 })] := by
    simp +decide [storeRawFRC1RT, storeRawFRC1, apply_json_to_memory,
      build_export_payload, List.mergeSort_singleton, serialize_team_entry,
      importEntryStep, hkey, dictInsert]
  refine ⟨?_, ?_, ?_⟩
  · rw [h1]
    decide
  · decide
  · rw [h1]
    simp only [storeRawFRC1]
    simp +decide [predict_match, getRatings, get_team_rating, dictGet?,
      dictInsert, defaultEnv]
    norm_num

end TrueskillPublic
